import Mathlib

/-!
Shallow embedding of `pkg/controller/tidb_control.go` (the TiDB member
status client, `defaultTiDBControl`) and of
`realTiKVGroupControl.UpdateTiKVGroup` (the optimistic status updater),
together with theorems settling the spec claims about them.

Conventions of the embedding:
* Go machine integers that matter here (HTTP status codes, ordinals,
  retry counters) are modelled as `Nat`; statefulset ordinals are
  non-negative, so the `int32` ordinal is embedded as `Nat`.
* Fallible Go calls are `Except String α`; a Go `error` is its message.
* The outside world (Kubernetes secret store, the HTTP transport, the
  x509 key-pair parser, the versioned-resource store and its lister) is
  an explicit record of oracles passed to each operation.
* Go values are immutable Lean values; `DeepCopy` is the identity on
  values, and "does not mutate the shared object" is rendered as the
  continuation receiving a fresh record-update value.
-/

/-! ### Decimal rendering (embedding of Go `fmt.Sprintf("%d", n)`). -/

/-- The character for a single decimal digit `d < 10`. -/
def digitChar (d : Nat) : Char := Char.ofNat (48 + d)

/-- Fuel-indexed decimal rendering; `fuel > n` renders `n` fully. -/
def decAux : Nat → Nat → List Char
  | 0, _ => []
  | fuel + 1, n =>
      if n < 10 then [digitChar n]
      else decAux fuel (n / 10) ++ [digitChar (n % 10)]

/-- Decimal rendering of a natural number, as produced by Go's `%d`. -/
def natStr (n : Nat) : String := String.mk (decAux (n + 1) n)

/-- Reads a digit list back to the number it denotes. -/
def decVal (l : List Char) : Nat :=
  l.foldl (fun a c => a * 10 + (c.toNat - 48)) 0

/-! ### Data model of the TiDB member status client. -/

/-- The fields of `v1alpha1.TidbCluster` this core reads. -/
structure TidbCluster where
  name : String
  ns : String
  tlsEnabled : Bool
  deriving DecidableEq

/-- Embedding of `tc.IsTLSClusterEnabled()`. -/
def TidbCluster.IsTLSClusterEnabled (tc : TidbCluster) : Bool := tc.tlsEnabled

/-- Modelled from the spec: `v1alpha1.TidbCluster.Scheme` is outside
`src/`; the spec says the URL scheme reflects the TLS posture. -/
def TidbCluster.Scheme (tc : TidbCluster) : String :=
  if tc.tlsEnabled then "https" else "http"

/-- An HTTP request as issued by the client: method and URL. -/
structure HTTPRequest where
  method : String
  url : String
  deriving DecidableEq

/-- An HTTP response: status code and (fully received) body. -/
structure HTTPResponse where
  statusCode : Nat
  body : String
  deriving DecidableEq

/-- A parsed client certificate/key pair (`tls.Certificate`). -/
structure TLSCert where
  certPEM : String
  keyPEM : String
  deriving DecidableEq

/-- The `tls.Config` built for mutual TLS: the client certificate and
the root-CA material appended from the secret (if present). -/
structure TLSClientConfig where
  clientCert : TLSCert
  rootCAs : Option String
  deriving DecidableEq

/-- The `http.Client`: fixed timeout, plus TLS configuration when the
cluster requires mutual TLS. -/
structure HTTPClient where
  timeoutSeconds : Nat
  tlsConfig : Option TLSClientConfig
  deriving DecidableEq

/-- A Kubernetes secret: a keyed map of data fields. -/
structure Secret where
  data : String → Option String

/-- Decoded payload of `POST /info` (`DBInfo` with json tag is_owner). -/
structure DBInfo where
  IsOwner : Bool
  deriving DecidableEq

/-- Decoded payload of `GET /settings` (`config.Config` from pingcap/tidb);
opaque to this core beyond successful decode. -/
structure TiDBServerConfig where
  raw : String
  deriving DecidableEq

/-- The external world the member status client runs against:
secret store, x509 key-pair parser, HTTP transport, and the decoder for
the opaque settings payload. -/
structure World where
  secrets : String → String → Except String Secret
  x509KeyPair : String → String → Except String TLSCert
  http : HTTPClient → HTTPRequest → Except String HTTPResponse
  decodeConfig : String → Except String TiDBServerConfig

/-- `defaultTiDBControl`: its only state is the unit-test URL override. -/
structure TiDBControl where
  testURL : String
  deriving DecidableEq

/-- `v1.TLSCertKey`. -/
def tlsCertKey : String := "tls.crt"

/-- `v1.TLSPrivateKeyKey`. -/
def tlsPrivateKeyKey : String := "tls.key"

/-- `v1.ServiceAccountRootCAKey`. -/
def serviceAccountRootCAKey : String := "ca.crt"

/-- Modelled from the spec: `util.ClusterClientTLSSecretName` is outside
`src/`; the spec says it is a deterministic per-cluster secret name. -/
def ClusterClientTLSSecretName (tcName : String) : String :=
  tcName ++ "-cluster-client-secret"

/-- Modelled from the spec: `TiDBMemberName` is outside `src/`; the
spec scenario fixes cluster `demo` to member prefix `demo-tidb`. -/
def TiDBMemberName (tcName : String) : String := tcName ++ "-tidb"

/-- Modelled from the spec: `TiDBPeerMemberName` is outside `src/`; the
spec scenario fixes cluster `demo` to peer service `demo-tidb-peer`. -/
def TiDBPeerMemberName (tcName : String) : String := tcName ++ "-tidb-peer"

/-- Embedding of `defaultTiDBControl.getBaseURL`. -/
def getBaseURL (tdc : TiDBControl) (tc : TidbCluster) (ordinal : Nat) : String :=
  if tdc.testURL ≠ "" then tdc.testURL
  else
    let tcName := tc.name
    let ns := tc.ns
    let scheme := tc.Scheme
    let hostName := TiDBMemberName tcName ++ "-" ++ natStr ordinal
    scheme ++ "://" ++ hostName ++ "." ++ TiDBPeerMemberName tcName ++ "." ++ ns ++ ":10080"

/-- Embedding of `defaultTiDBControl.getHTTPClient`. -/
def getHTTPClient (w : World) (tc : TidbCluster) : Except String HTTPClient :=
  let httpClient : HTTPClient := ⟨5, none⟩
  if !tc.IsTLSClusterEnabled then Except.ok httpClient
  else
    let tcName := tc.name
    let ns := tc.ns
    let secretName := ClusterClientTLSSecretName tcName
    match w.secrets ns secretName with
    | Except.error e => Except.error e
    | Except.ok secret =>
      match secret.data tlsCertKey, secret.data tlsPrivateKeyKey with
      | some clientCert, some clientKey =>
        match w.x509KeyPair clientCert clientKey with
        | Except.error e =>
            Except.error ("unable to load certificates from secret " ++ ns ++ "/"
              ++ secretName ++ ": " ++ e)
        | Except.ok tlsCert =>
            Except.ok ⟨5, some ⟨tlsCert, secret.data serviceAccountRootCAKey⟩⟩
      | _, _ =>
          Except.error ("cert or key does not exist in secret " ++ ns ++ "/" ++ secretName)

/-- What happened to one received HTTP response body by the time the
operation returned: was it fully read, was it closed. -/
structure BodyFate where
  drained : Bool
  closed : Bool
  deriving DecidableEq

/-- Observable side effects of one operation: the HTTP requests issued,
and one `BodyFate` per response actually received. -/
structure HTTPTrace where
  requests : List HTTPRequest
  fates : List BodyFate
  deriving DecidableEq

/-- The error text built by `getBodyOK` (no colon before the URL). -/
def errResponseSpace (code : Nat) (url : String) : String :=
  "Error response " ++ natStr code ++ " URL " ++ url

/-- The error text built by `GetInfo`/`GetSettings` (colon before URL). -/
def errResponseColon (code : Nat) (url : String) : String :=
  "Error response " ++ natStr code ++ " URL: " ++ url

/-- Embedding of `getBodyOK`.  Note the source returns on a status
`>= 400` before registering the deferred close, so on that path the
body is neither drained nor closed. -/
def getBodyOK (w : World) (httpClient : HTTPClient) (apiURL : String) :
    Except String String × HTTPTrace :=
  let req : HTTPRequest := ⟨"GET", apiURL⟩
  match w.http httpClient req with
  | Except.error e => (Except.error e, ⟨[req], []⟩)
  | Except.ok res =>
      if res.statusCode ≥ 400 then
        (Except.error (errResponseSpace res.statusCode apiURL), ⟨[req], [⟨false, false⟩]⟩)
      else
        (Except.ok res.body, ⟨[req], [⟨true, true⟩]⟩)

/-- Result of `GetHealth`: the boolean, the returned error, the trace. -/
structure HealthResult where
  healthy : Bool
  err : Option String
  trace : HTTPTrace
  deriving DecidableEq

/-- Embedding of `defaultTiDBControl.GetHealth`. -/
def GetHealth (w : World) (tdc : TiDBControl) (tc : TidbCluster) (ordinal : Nat) :
    HealthResult :=
  match getHTTPClient w tc with
  | Except.error e => ⟨false, some e, ⟨[], []⟩⟩
  | Except.ok httpClient =>
      let url := getBaseURL tdc tc ordinal ++ "/status"
      match getBodyOK w httpClient url with
      | (Except.ok _, tr) => ⟨true, none, tr⟩
      | (Except.error _, tr) => ⟨false, none, tr⟩

/-- Modelled from the spec: `encoding/json.Unmarshal` into `DBInfo` is
library code outside `src/`; spec section 6 fixes the `/info` wire form
to a JSON object with the single boolean field `is_owner`.  This
decoder accepts the canonical renderings of that shape (a missing field
decodes to the zero value, as in Go) and rejects anything else. -/
def decodeDBInfo (body : String) : Except String DBInfo :=
  if body = "\x7b\x7d" then Except.ok ⟨false⟩
  else if body = "\x7b\"is_owner\":true\x7d" then Except.ok ⟨true⟩
  else if body = "\x7b\"is_owner\":false\x7d" then Except.ok ⟨false⟩
  else Except.error "invalid JSON payload for DBInfo"

instance {ε α : Type} [DecidableEq ε] [DecidableEq α] : DecidableEq (Except ε α)
  | Except.ok a, Except.ok b =>
      if h : a = b then isTrue (by rw [h])
      else isFalse (by intro hc; cases hc; exact h rfl)
  | Except.ok _, Except.error _ => isFalse (by intro hc; cases hc)
  | Except.error _, Except.ok _ => isFalse (by intro hc; cases hc)
  | Except.error e, Except.error f =>
      if h : e = f then isTrue (by rw [h])
      else isFalse (by intro hc; cases hc; exact h rfl)

/-- Result of `GetInfo`: decoded info or error, plus the trace. -/
structure InfoResult where
  info : Except String DBInfo
  trace : HTTPTrace
  deriving DecidableEq

/-- Embedding of `defaultTiDBControl.GetInfo`.  The deferred close is
registered right after `Do` succeeds, so every later exit closes the
body; only the 200 path drains it (via `ReadAll`). -/
def GetInfo (w : World) (tdc : TiDBControl) (tc : TidbCluster) (ordinal : Nat) :
    InfoResult :=
  match getHTTPClient w tc with
  | Except.error e => ⟨Except.error e, ⟨[], []⟩⟩
  | Except.ok httpClient =>
      let url := getBaseURL tdc tc ordinal ++ "/info"
      let req : HTTPRequest := ⟨"POST", url⟩
      match w.http httpClient req with
      | Except.error e => ⟨Except.error e, ⟨[req], []⟩⟩
      | Except.ok res =>
          if res.statusCode ≠ 200 then
            ⟨Except.error (errResponseColon res.statusCode url), ⟨[req], [⟨false, true⟩]⟩⟩
          else
            match decodeDBInfo res.body with
            | Except.error e => ⟨Except.error e, ⟨[req], [⟨true, true⟩]⟩⟩
            | Except.ok info => ⟨Except.ok info, ⟨[req], [⟨true, true⟩]⟩⟩

/-- Result of `GetSettings`: decoded settings or error, plus trace. -/
structure SettingsResult where
  settings : Except String TiDBServerConfig
  trace : HTTPTrace
  deriving DecidableEq

/-- Embedding of `defaultTiDBControl.GetSettings`. -/
def GetSettings (w : World) (tdc : TiDBControl) (tc : TidbCluster) (ordinal : Nat) :
    SettingsResult :=
  match getHTTPClient w tc with
  | Except.error e => ⟨Except.error e, ⟨[], []⟩⟩
  | Except.ok httpClient =>
      let url := getBaseURL tdc tc ordinal ++ "/settings"
      let req : HTTPRequest := ⟨"GET", url⟩
      match w.http httpClient req with
      | Except.error e => ⟨Except.error e, ⟨[req], []⟩⟩
      | Except.ok res =>
          if res.statusCode ≠ 200 then
            ⟨Except.error (errResponseColon res.statusCode url), ⟨[req], [⟨false, true⟩]⟩⟩
          else
            match w.decodeConfig res.body with
            | Except.error e => ⟨Except.error e, ⟨[req], [⟨true, true⟩]⟩⟩
            | Except.ok cfg => ⟨Except.ok cfg, ⟨[req], [⟨true, true⟩]⟩⟩

/-! ### Data model of the optimistic status updater. -/

/-- The fields of `v1alpha1.TiKVGroup` the updater touches, generic in
the spec and status sub-documents. -/
structure TiKVGroup (S T : Type) where
  name : String
  ns : String
  spec : S
  status : T
  deriving DecidableEq

/-- Outcome of one `cli.TiKVGroups(ns).Update(tg)` call: success, a
write-conflict error, or any other error (each carrying its message). -/
inductive WriteOutcome where
  | ok : WriteOutcome
  | conflict : String → WriteOutcome
  | fatal : String → WriteOutcome
  deriving DecidableEq

/-- The error `UpdateTiKVGroup` returns, tagged by its class. -/
inductive UpdateErr where
  | conflict : String → UpdateErr
  | fatal : String → UpdateErr
  deriving DecidableEq

/-- The environment of one `UpdateTiKVGroup` run: the scripted outcome
of the n-th write attempt, and the scripted result of the lister
re-fetch performed after the n-th attempt fails. -/
structure UpdEnv (S T : Type) where
  write : Nat → WriteOutcome
  lister : Nat → Except String (TiKVGroup S T)

/-- Observable result of one `UpdateTiKVGroup` run: the objects passed
to the store's update call in order, the returned object, the returned
error. -/
structure UpdateResult (S T : Type) where
  writes : List (TiKVGroup S T)
  ret : Option (TiKVGroup S T)
  err : Option UpdateErr
  deriving DecidableEq

/-- `retry.DefaultRetry.Steps` from client-go: at most 5 attempts. -/
def retrySteps : Nat := 5

/-- The conflict-recovery step inside the retry closure: re-fetch from
the lister; on success take a deep copy of the fetched object and
re-assert the snapshotted status onto it, on failure keep the current
working object (the error is only logged). -/
def refetch {S T : Type} (env : UpdEnv S T) (snap : T) (attempt : Nat)
    (tg : TiKVGroup S T) : TiKVGroup S T :=
  match env.lister attempt with
  | Except.ok updated => { updated with status := snap }
  | Except.error _ => tg

/-- The retry loop of `retry.RetryOnConflict(retry.DefaultRetry, fn)`
around the update closure: runs `fn` up to `remaining` times, stops on
success or on a non-conflict error, and surfaces the last conflict
error when the attempt budget is exhausted.  The lister re-fetch also
runs on the final conflict and on a fatal error in the source, but its
result is discarded there. -/
def upLoop {S T : Type} (env : UpdEnv S T) (snap : T) :
    Nat → Nat → TiKVGroup S T → UpdateResult S T
  | _, 0, _ => ⟨[], none, none⟩
  | attempt, remaining + 1, tg =>
      match env.write attempt with
      | WriteOutcome.ok => ⟨[tg], some tg, none⟩
      | WriteOutcome.conflict m =>
          let tg' := refetch env snap attempt tg
          if remaining = 0 then ⟨[tg], none, some (UpdateErr.conflict m)⟩
          else
            let r := upLoop env snap (attempt + 1) remaining tg'
            ⟨tg :: r.writes, r.ret, r.err⟩
      | WriteOutcome.fatal m => ⟨[tg], none, some (UpdateErr.fatal m)⟩

/-- Embedding of `realTiKVGroupControl.UpdateTiKVGroup`.  The baseline
status is snapshotted from `tg.Status` of the object passed in; the
`newStatus` and `oldStatus` arguments do not occur in the body. -/
def UpdateTiKVGroup {S T : Type} (env : UpdEnv S T) (tg : TiKVGroup S T)
    (newStatus oldStatus : T) : UpdateResult S T :=
  let snap := tg.status
  upLoop env snap 0 retrySteps tg

/-! ### Concrete fixtures used by counterexamples and witnesses. -/

/-- The separator the URL builder puts between the cluster name and the
ordinal: the characters of the literal after the member-name suffix. -/
def tidbSep : List Char := ['-', 't', 'i', 'd', 'b', '-']

/-- A `defaultTiDBControl` with no test-URL override. -/
def tdcReal : TiDBControl := ⟨""⟩

/-- A cluster with mutual TLS disabled. -/
def tcPlain : TidbCluster := ⟨"demo", "default", false⟩

/-- A cluster with mutual TLS enabled. -/
def tcTLS : TidbCluster := ⟨"demo", "default", true⟩

/-- A world whose transport always answers 200. -/
def wHealthy : World where
  secrets := fun _ _ => Except.error "no secret"
  x509KeyPair := fun _ _ => Except.error "unused"
  http := fun _ _ => Except.ok ⟨200, "ok"⟩
  decodeConfig := fun _ => Except.error "unused"

/-- A world whose transport always answers 500. -/
def w500 : World where
  secrets := fun _ _ => Except.error "no secret"
  x509KeyPair := fun _ _ => Except.error "unused"
  http := fun _ _ => Except.ok ⟨500, "err"⟩
  decodeConfig := fun _ => Except.error "unused"

/-- A world whose transport always answers 503. -/
def w503 : World where
  secrets := fun _ _ => Except.error "no secret"
  x509KeyPair := fun _ _ => Except.error "unused"
  http := fun _ _ => Except.ok ⟨503, "service unavailable"⟩
  decodeConfig := fun _ => Except.error "unused"

/-- A world whose transport answers 200 with the is_owner fixture. -/
def wInfoOwner : World where
  secrets := fun _ _ => Except.error "no secret"
  x509KeyPair := fun _ _ => Except.error "unused"
  http := fun _ _ => Except.ok ⟨200, "\x7b\"is_owner\":true\x7d"⟩
  decodeConfig := fun _ => Except.error "unused"

/-- A secret carrying only the client-certificate field. -/
def secretNoKey : Secret := ⟨fun k => if k = "tls.crt" then some "CERTPEM" else none⟩

/-- A world whose secret store serves `secretNoKey`; its transport is
never supposed to be reached. -/
def wMissingKey : World where
  secrets := fun _ _ => Except.ok secretNoKey
  x509KeyPair := fun _ _ => Except.error "unused"
  http := fun _ _ => Except.error "unreachable"
  decodeConfig := fun _ => Except.error "unused"

/-- The updater's input object in the concrete runs: spec 7, status 1. -/
def cexTg : TiKVGroup Nat Nat := ⟨"tg", "ns", 7, 1⟩

/-- One conflict, then success; the lister serves spec 55, status 99. -/
def cexEnvC1 : UpdEnv Nat Nat where
  write := fun i => if i = 0 then WriteOutcome.conflict "version conflict" else WriteOutcome.ok
  lister := fun _ => Except.ok ⟨"tg", "ns", 55, 99⟩

/-- Immediate success; the lister always fails. -/
def cexEnvC2 : UpdEnv Nat Nat where
  write := fun _ => WriteOutcome.ok
  lister := fun _ => Except.error "unused"

/-- Every write attempt conflicts (message = attempt index). -/
def envAllConflict : UpdEnv Nat Nat where
  write := fun i => WriteOutcome.conflict (natStr i)
  lister := fun _ => Except.ok ⟨"tg", "ns", 55, 99⟩

/-- One conflict, then a non-conflict error; the lister always fails. -/
def envFatal : UpdEnv Nat Nat where
  write := fun i => if i = 0 then WriteOutcome.conflict "c0" else WriteOutcome.fatal "boom"
  lister := fun _ => Except.error "miss"

/-! ### Lemmas about the decimal rendering. -/

lemma digitChar_toNat {d : Nat} (h : d < 10) : (digitChar d).toNat = 48 + d := by
  interval_cases d <;> decide

lemma digitChar_isDigit {d : Nat} (h : d < 10) : (digitChar d).isDigit = true := by
  interval_cases d <;> decide

lemma decVal_append_singleton (l : List Char) (c : Char) :
    decVal (l ++ [c]) = 10 * decVal l + (c.toNat - 48) := by
  unfold decVal
  rw [List.foldl_append]
  simp [Nat.mul_comm]

lemma decVal_decAux : ∀ fuel n, n < fuel → decVal (decAux fuel n) = n := by
  intro fuel
  induction fuel with
  | zero => intro n h; omega
  | succ fuel ih =>
      intro n h
      by_cases h10 : n < 10
      · simp only [decAux, if_pos h10]
        unfold decVal
        simp [digitChar_toNat h10]
      · have hdiv : n / 10 < fuel := by
          have h1 : n / 10 < n := Nat.div_lt_self (by omega) (by omega)
          omega
        simp only [decAux, if_neg h10]
        rw [decVal_append_singleton, ih _ hdiv,
          digitChar_toNat (Nat.mod_lt n (by omega))]
        omega

lemma decAux_ne_nil : ∀ fuel n, n < fuel → decAux fuel n ≠ [] := by
  intro fuel n h
  match fuel with
  | 0 => omega
  | fuel + 1 =>
      by_cases h10 : n < 10
      · simp [decAux, if_pos h10]
      · simp [decAux, if_neg h10]

lemma decAux_isDigit : ∀ fuel n, n < fuel → ∀ c ∈ decAux fuel n, c.isDigit = true := by
  intro fuel
  induction fuel with
  | zero => intro n h; omega
  | succ fuel ih =>
      intro n h c hc
      by_cases h10 : n < 10
      · simp only [decAux, if_pos h10, List.mem_singleton] at hc
        rw [hc]; exact digitChar_isDigit h10
      · have hdiv : n / 10 < fuel := by
          have h1 : n / 10 < n := Nat.div_lt_self (by omega) (by omega)
          omega
        simp only [decAux, if_neg h10, List.mem_append, List.mem_singleton] at hc
        rcases hc with hc | hc
        · exact ih _ hdiv c hc
        · rw [hc]; exact digitChar_isDigit (Nat.mod_lt n (by omega))

lemma string_data_inj {s t : String} (h : s.data = t.data) : s = t := by
  cases s; cases t; cases h; rfl

lemma natStr_data_ne_nil (n : Nat) : (natStr n).data ≠ [] :=
  decAux_ne_nil (n + 1) n (Nat.lt_succ_self n)

lemma natStr_data_isDigit (n : Nat) : ∀ c ∈ (natStr n).data, c.isDigit = true :=
  decAux_isDigit (n + 1) n (Nat.lt_succ_self n)

lemma natStr_data_inj {m n : Nat} (h : (natStr m).data = (natStr n).data) : m = n := by
  have hm := decVal_decAux (m + 1) m (Nat.lt_succ_self m)
  have hn := decVal_decAux (n + 1) n (Nat.lt_succ_self n)
  have : decVal (natStr m).data = decVal (natStr n).data := by rw [h]
  simpa [natStr, hm, hn] using this

/-! ### Injectivity of the base-URL construction. -/

lemma string_data_append (s t : String) : (s ++ t).data = s.data ++ t.data := rfl

/-- Core combinatorial step: in the host-and-peer part of the URL, the
cluster name and the ordinal digits can be recovered unambiguously.
Stated for `c1` no longer than `c2`. -/
lemma hostPart_le (c1 c2 r1 r2 E : List Char)
    (hr1 : r1 ≠ []) (hd1 : ∀ a ∈ r1, a.isDigit = true)
    (hle : c1.length ≤ c2.length)
    (h : c1 ++ (tidbSep ++ (r1 ++ ('.' :: (c1 ++ E)))) =
         c2 ++ (tidbSep ++ (r2 ++ ('.' :: (c2 ++ E))))) :
    c1 = c2 ∧ r1 = r2 := by
  have htake := congrArg (List.take c1.length) h
  rw [List.take_left, List.take_append_of_le_length hle] at htake
  obtain ⟨u, hc2⟩ : ∃ u, c2 = c1 ++ u := by
    refine ⟨c2.drop c1.length, ?_⟩
    have hsplit : c2 = List.take c1.length c2 ++ List.drop c1.length c2 :=
      (List.take_append_drop _ _).symm
    rw [← htake] at hsplit
    exact hsplit
  subst hc2
  by_cases hun : u = []
  · subst hun
    constructor
    · simp
    · simp only [List.append_nil] at h
      have h1 := List.append_cancel_left h
      have h2 := List.append_cancel_left h1
      exact List.append_cancel_right h2
  · exfalso
    simp only [List.append_assoc] at h
    have h' := List.append_cancel_left h
    have hlen := congrArg List.length h'
    simp only [List.length_append, List.length_cons, tidbSep] at hlen
    have hrlen : r1.length = r2.length + 2 * u.length := by
      simp only [List.length_cons, List.length_nil] at hlen
      omega
    have hupos : 0 < u.length := List.length_pos.mpr hun
    obtain ⟨b, r1', hb⟩ := List.exists_cons_of_ne_nil hr1
    have hbd : b.isDigit = true := hd1 b (by rw [hb]; exact List.mem_cons_self b r1')
    have hdrop := congrArg (List.drop u.length) h'
    rw [List.drop_left] at hdrop
    rcases (by omega : u.length = 1 ∨ u.length = 2 ∨ u.length = 3 ∨ u.length = 4 ∨
        u.length = 5 ∨ u.length = 6 ∨ 7 ≤ u.length) with hd | hd | hd | hd | hd | hd | hd
    · rw [hd, hb] at hdrop
      simp [tidbSep, List.drop_append_eq_append_drop, List.cons_append] at hdrop
    · rw [hd, hb] at hdrop
      simp [tidbSep, List.drop_append_eq_append_drop, List.cons_append] at hdrop
    · rw [hd, hb] at hdrop
      simp [tidbSep, List.drop_append_eq_append_drop, List.cons_append] at hdrop
    · rw [hd, hb] at hdrop
      simp [tidbSep, List.drop_append_eq_append_drop, List.cons_append] at hdrop
    · rw [hd, hb] at hdrop
      simp [tidbSep, List.drop_append_eq_append_drop, List.cons_append] at hdrop
      rw [hdrop.1] at hbd
      simp at hbd
    · rw [hd, hb] at hdrop
      simp [tidbSep, List.drop_append_eq_append_drop, List.cons_append] at hdrop
      rw [hdrop.1] at hbd
      simp at hbd
    · have hd6 : u.length - 6 < r1.length := by omega
      rw [List.drop_append_eq_append_drop] at hdrop
      have hnil : List.drop u.length tidbSep = [] := by
        rw [List.drop_eq_nil_iff]
        simp only [tidbSep, List.length_cons, List.length_nil]
        omega
      rw [hnil, List.nil_append, List.drop_append_eq_append_drop] at hdrop
      have hz : u.length - 6 - r1.length = 0 := by omega
      have hz' : u.length - List.length tidbSep = u.length - 6 := by
        simp only [tidbSep, List.length_cons, List.length_nil]
      rw [hz'] at hdrop
      rw [hz, List.drop_zero] at hdrop
      have hne : r1.drop (u.length - 6) ≠ [] := by
        intro hc
        rw [List.drop_eq_nil_iff] at hc
        omega
      obtain ⟨b2, bs, hbs⟩ := List.exists_cons_of_ne_nil hne
      have hb2 : b2.isDigit = true :=
        hd1 b2 (List.mem_of_mem_drop (by rw [hbs]; exact List.mem_cons_self b2 bs))
      rw [hbs] at hdrop
      simp [tidbSep, List.cons_append] at hdrop
      rw [hdrop.1] at hb2
      simp at hb2

/-- The host-and-peer part of the URL determines the cluster name and
the ordinal digit string (symmetric wrapper). -/
lemma hostPart_inj (c1 c2 r1 r2 E : List Char)
    (hr1 : r1 ≠ []) (hd1 : ∀ a ∈ r1, a.isDigit = true)
    (hr2 : r2 ≠ []) (hd2 : ∀ a ∈ r2, a.isDigit = true)
    (h : c1 ++ (tidbSep ++ (r1 ++ ('.' :: (c1 ++ E)))) =
         c2 ++ (tidbSep ++ (r2 ++ ('.' :: (c2 ++ E))))) :
    c1 = c2 ∧ r1 = r2 := by
  rcases Nat.le_total c1.length c2.length with hle | hle
  · exact hostPart_le c1 c2 r1 r2 E hr1 hd1 hle h
  · obtain ⟨h1, h2⟩ := hostPart_le c2 c1 r2 r1 E hr2 hd2 hle h.symm
    exact ⟨h1.symm, h2.symm⟩

/-! ### Claim C5. -/

/-- C5: provided no test-URL override is set, base-URL construction is
a pure, deterministic function of cluster name, namespace, ordinal and
TLS posture plus the fixed port 10080, and is injective: distinct
(cluster name, ordinal) pairs never produce the same address; and the
scenario cluster demo, ordinal 1, namespace default, TLS disabled
yields the expected URL. -/
theorem getBaseURL_injective_and_demo_scenario
    (tdc : TiDBControl) (h0 : tdc.testURL = "") (ns : String) (tls : Bool)
    (c1 c2 : String) (o1 o2 : Nat)
    (heq : getBaseURL tdc ⟨c1, ns, tls⟩ o1 = getBaseURL tdc ⟨c2, ns, tls⟩ o2) :
    (c1 = c2 ∧ o1 = o2) ∧
      getBaseURL ⟨""⟩ ⟨"demo", "default", false⟩ 1 =
        "http://demo-tidb-1.demo-tidb-peer.default:10080" := by
  constructor
  · simp only [getBaseURL, h0, ne_eq, not_true_eq_false, if_false,
      TidbCluster.Scheme, TiDBMemberName, TiDBPeerMemberName] at heq
    have hdata := congrArg String.data heq
    simp only [string_data_append, List.append_assoc] at hdata
    have h1 := List.append_cancel_left hdata
    have h2 := List.append_cancel_left h1
    obtain ⟨hc, hr⟩ := hostPart_inj c1.data c2.data (natStr o1).data (natStr o2).data _
      (natStr_data_ne_nil o1) (natStr_data_isDigit o1)
      (natStr_data_ne_nil o2) (natStr_data_isDigit o2) h2
    exact ⟨string_data_inj hc, natStr_data_inj hr⟩
  · decide

/-- C5 witness: the injectivity theorem applied at a concrete input. -/
theorem getBaseURL_injective_witness :
    ("demo" = "demo" ∧ 1 = 1) ∧
      getBaseURL ⟨""⟩ ⟨"demo", "default", false⟩ 1 =
        "http://demo-tidb-1.demo-tidb-peer.default:10080" :=
  getBaseURL_injective_and_demo_scenario ⟨""⟩ rfl "default" false "demo" "demo" 1 1 rfl

/-! ### Lemmas about the retry loop. -/

lemma upLoop_ok_step {S T : Type} (env : UpdEnv S T) (snap : T) (attempt rem : Nat)
    (tg : TiKVGroup S T) (hw : env.write attempt = WriteOutcome.ok) :
    upLoop env snap attempt (rem + 1) tg = ⟨[tg], some tg, none⟩ := by
  simp [upLoop, hw]

lemma upLoop_conflict_last {S T : Type} (env : UpdEnv S T) (snap : T) (attempt : Nat)
    (tg : TiKVGroup S T) (m : String) (hw : env.write attempt = WriteOutcome.conflict m) :
    upLoop env snap attempt 1 tg = ⟨[tg], none, some (UpdateErr.conflict m)⟩ := by
  simp [upLoop, hw]

lemma upLoop_conflict_step {S T : Type} (env : UpdEnv S T) (snap : T) (attempt rem : Nat)
    (tg : TiKVGroup S T) (m : String) (hw : env.write attempt = WriteOutcome.conflict m)
    (hr : rem ≠ 0) :
    upLoop env snap attempt (rem + 1) tg =
      ⟨tg :: (upLoop env snap (attempt + 1) rem (refetch env snap attempt tg)).writes,
       (upLoop env snap (attempt + 1) rem (refetch env snap attempt tg)).ret,
       (upLoop env snap (attempt + 1) rem (refetch env snap attempt tg)).err⟩ := by
  simp [upLoop, hw, hr]

lemma upLoop_fatal_step {S T : Type} (env : UpdEnv S T) (snap : T) (attempt rem : Nat)
    (tg : TiKVGroup S T) (m : String) (hw : env.write attempt = WriteOutcome.fatal m) :
    upLoop env snap attempt (rem + 1) tg = ⟨[tg], none, some (UpdateErr.fatal m)⟩ := by
  simp [upLoop, hw]

lemma refetch_status {S T : Type} (env : UpdEnv S T) (snap : T) (attempt : Nat)
    (tg : TiKVGroup S T) (h : tg.status = snap) :
    (refetch env snap attempt tg).status = snap := by
  unfold refetch
  cases env.lister attempt <;> simp [h]

lemma upLoop_status_inv {S T : Type} (env : UpdEnv S T) (snap : T) :
    ∀ (remaining attempt : Nat) (tg : TiKVGroup S T), tg.status = snap →
      ∀ w ∈ (upLoop env snap attempt remaining tg).writes, w.status = snap := by
  intro remaining
  induction remaining with
  | zero => intro attempt tg _ w hw; simp [upLoop] at hw
  | succ rem ih =>
      intro attempt tg hst w hw
      rcases hw' : env.write attempt with _ | m | m
      · rw [upLoop_ok_step env snap attempt rem tg hw'] at hw
        simp only [List.mem_singleton] at hw
        rw [hw]; exact hst
      · by_cases hr : rem = 0
        · subst hr
          rw [upLoop_conflict_last env snap attempt tg m hw'] at hw
          simp only [List.mem_singleton] at hw
          rw [hw]; exact hst
        · rw [upLoop_conflict_step env snap attempt rem tg m hw' hr] at hw
          simp only [List.mem_cons] at hw
          rcases hw with h | h
          · rw [h]; exact hst
          · exact ih (attempt + 1) (refetch env snap attempt tg)
              (refetch_status env snap attempt tg hst) w h
      · rw [upLoop_fatal_step env snap attempt rem tg m hw'] at hw
        simp only [List.mem_singleton] at hw
        rw [hw]; exact hst

lemma upLoop_conflicts_then_ok {S T : Type} (env : UpdEnv S T) (snap : T) :
    ∀ (N attempt remaining : Nat) (tg : TiKVGroup S T),
      N < remaining →
      (∀ i, i < N → ∃ m, env.write (attempt + i) = WriteOutcome.conflict m) →
      env.write (attempt + N) = WriteOutcome.ok →
      (upLoop env snap attempt remaining tg).writes.length = N + 1 ∧
      (upLoop env snap attempt remaining tg).err = none ∧
      (N = 0 → (upLoop env snap attempt remaining tg).ret = some tg) ∧
      (∀ f, 0 < N → env.lister (attempt + N - 1) = Except.ok f →
        (upLoop env snap attempt remaining tg).ret = some { f with status := snap }) := by
  intro N
  induction N with
  | zero =>
      intro attempt remaining tg hlt _ hok
      obtain ⟨rem, rfl⟩ : ∃ rem, remaining = rem + 1 := ⟨remaining - 1, by omega⟩
      rw [Nat.add_zero] at hok
      rw [upLoop_ok_step env snap attempt rem tg hok]
      simp
  | succ N ih =>
      intro attempt remaining tg hlt hconf hok
      obtain ⟨rem, rfl⟩ : ∃ rem, remaining = rem + 1 := ⟨remaining - 1, by omega⟩
      obtain ⟨m, hm⟩ := hconf 0 (by omega)
      rw [Nat.add_zero] at hm
      have hrne : rem ≠ 0 := by omega
      rw [upLoop_conflict_step env snap attempt rem tg m hm hrne]
      obtain ⟨hlen, herr, hret0, hretf⟩ := ih (attempt + 1) rem (refetch env snap attempt tg)
        (by omega)
        (fun i hi => by
          have h := hconf (i + 1) (by omega)
          rwa [show attempt + (i + 1) = attempt + 1 + i from by omega] at h)
        (by rwa [show attempt + 1 + N = attempt + (N + 1) from by omega])
      refine ⟨by simpa using hlen, by simpa using herr, fun hc => absurd hc (Nat.succ_ne_zero N), ?_⟩
      intro f _ hl
      by_cases hN : N = 0
      · subst hN
        rw [show attempt + 1 - 1 = attempt from by omega] at hl
        have hr0 := hret0 rfl
        have hrf : refetch env snap attempt tg = { f with status := snap } := by
          simp [refetch, hl]
        simp only []
        rw [hr0, hrf]
      · have h := hretf f (by omega)
          (by rwa [show attempt + (N + 1) - 1 = attempt + 1 + N - 1 from by omega] at hl)
        simpa using h

lemma upLoop_all_conflicts {S T : Type} (env : UpdEnv S T) (snap : T) (ms : Nat → String) :
    ∀ (remaining attempt : Nat) (tg : TiKVGroup S T),
      0 < remaining →
      (∀ i, i < remaining → env.write (attempt + i) = WriteOutcome.conflict (ms (attempt + i))) →
      (upLoop env snap attempt remaining tg).writes.length = remaining ∧
      (upLoop env snap attempt remaining tg).err =
        some (UpdateErr.conflict (ms (attempt + remaining - 1))) := by
  intro remaining
  induction remaining with
  | zero => intro attempt tg h _; omega
  | succ rem ih =>
      intro attempt tg _ hconf
      have hm := hconf 0 (by omega)
      rw [Nat.add_zero] at hm
      by_cases hr : rem = 0
      · subst hr
        rw [upLoop_conflict_last env snap attempt tg _ hm]
        constructor <;> simp
      · rw [upLoop_conflict_step env snap attempt rem tg _ hm hr]
        obtain ⟨hlen, herr⟩ := ih (attempt + 1) (refetch env snap attempt tg)
          (by omega)
          (fun i hi => by
            have h := hconf (i + 1) (by omega)
            rwa [show attempt + (i + 1) = attempt + 1 + i from by omega] at h)
        refine ⟨by simpa using hlen, ?_⟩
        have harith : attempt + 1 + rem - 1 = attempt + (rem + 1) - 1 := by omega
        rw [harith] at herr
        simpa using herr

lemma upLoop_conflicts_then_fatal {S T : Type} (env : UpdEnv S T) (snap : T) :
    ∀ (k attempt remaining : Nat) (tg : TiKVGroup S T) (m : String),
      k < remaining →
      (∀ i, i < k → ∃ c, env.write (attempt + i) = WriteOutcome.conflict c) →
      env.write (attempt + k) = WriteOutcome.fatal m →
      (upLoop env snap attempt remaining tg).writes.length = k + 1 ∧
      (upLoop env snap attempt remaining tg).err = some (UpdateErr.fatal m) := by
  intro k
  induction k with
  | zero =>
      intro attempt remaining tg m hlt _ hfatal
      obtain ⟨rem, rfl⟩ : ∃ rem, remaining = rem + 1 := ⟨remaining - 1, by omega⟩
      rw [Nat.add_zero] at hfatal
      rw [upLoop_fatal_step env snap attempt rem tg m hfatal]
      simp
  | succ k ih =>
      intro attempt remaining tg m hlt hconf hfatal
      obtain ⟨rem, rfl⟩ : ∃ rem, remaining = rem + 1 := ⟨remaining - 1, by omega⟩
      obtain ⟨c, hc⟩ := hconf 0 (by omega)
      rw [Nat.add_zero] at hc
      have hrne : rem ≠ 0 := by omega
      rw [upLoop_conflict_step env snap attempt rem tg c hc hrne]
      obtain ⟨hlen, herr⟩ := ih (attempt + 1) rem (refetch env snap attempt tg) m
        (by omega)
        (fun i hi => by
          obtain ⟨d, hd⟩ := hconf (i + 1) (by omega)
          exact ⟨d, by rwa [show attempt + (i + 1) = attempt + 1 + i from by omega] at hd⟩)
        (by rwa [show attempt + 1 + k = attempt + (k + 1) from by omega])
      exact ⟨by simpa using hlen, by simpa using herr⟩

/-! ### Claims C1, C2, C3, C4, C10. -/

/-- C1 counterexample: with the live object carrying status 1, previous
status baseline 2 and new status 3, one conflict and a successful
lister re-fetch (serving spec 55, status 99), the statuses written are
[1, 1]: the status re-asserted onto the re-fetched object is the live
object's status 1, not the prior known-good status argument 2 (nor 3);
the second write does carry the re-fetched spec 55. -/
theorem snapshot_not_from_oldStatus_cex :
    (UpdateTiKVGroup cexEnvC1 cexTg 3 2).writes.map (fun w => w.status) = [1, 1] ∧
    (UpdateTiKVGroup cexEnvC1 cexTg 3 2).writes.map (fun w => w.spec) = [7, 55] ∧
    (1 : Nat) ≠ 2 ∧ (1 : Nat) ≠ 3 := by
  decide

/-- C1 (amended): the baseline status that is snapshotted and
re-asserted onto re-fetched objects during conflict retries is taken
from the status of the live object passed in; every object handed to
the store carries that status, whatever the new-status and old-status
arguments are. -/
theorem UpdateTiKVGroup_snapshot_from_live_object {S T : Type} (env : UpdEnv S T)
    (tg : TiKVGroup S T) (newStatus oldStatus : T) :
    ∀ w ∈ (UpdateTiKVGroup env tg newStatus oldStatus).writes, w.status = tg.status :=
  upLoop_status_inv env tg.status retrySteps 0 tg rfl

/-- C1 witness: the amended theorem applied at a concrete input. -/
theorem UpdateTiKVGroup_snapshot_witness :
    (⟨"tg", "ns", 7, 1⟩ : TiKVGroup Nat Nat).status = cexTg.status :=
  UpdateTiKVGroup_snapshot_from_live_object cexEnvC2 cexTg 3 2 ⟨"tg", "ns", 7, 1⟩ (by decide)

/-- C2 counterexample: with zero conflicts, the persisted object is the
one passed in, whose status is 1 — not the new status argument 3. -/
theorem persisted_status_not_newStatus_cex :
    (UpdateTiKVGroup cexEnvC2 cexTg 3 2).writes.length = 1 ∧
    (UpdateTiKVGroup cexEnvC2 cexTg 3 2).ret = some cexTg ∧
    cexTg.status = 1 ∧ (1 : Nat) ≠ 3 := by
  decide

/-- C2 (amended): for N simulated conflicts below the retry budget
followed by a success, `UpdateTiKVGroup` performs exactly N+1 write
attempts and succeeds; the persisted object is the passed-in object
when N = 0, and otherwise is the latest object fetched from the lister
with the snapshot of the passed-in object's status re-asserted — so
the persisted spec is the latest fetched spec, and the persisted status
is the status the live object carried at entry (not the new-status
argument). -/
theorem UpdateTiKVGroup_conflicts_then_success {S T : Type} (env : UpdEnv S T)
    (tg : TiKVGroup S T) (newStatus oldStatus : T) (N : Nat)
    (hN : N + 1 ≤ retrySteps)
    (hconf : ∀ i, i < N → ∃ m, env.write i = WriteOutcome.conflict m)
    (hok : env.write N = WriteOutcome.ok) :
    (UpdateTiKVGroup env tg newStatus oldStatus).writes.length = N + 1 ∧
    (UpdateTiKVGroup env tg newStatus oldStatus).err = none ∧
    (N = 0 → (UpdateTiKVGroup env tg newStatus oldStatus).ret = some tg) ∧
    (∀ f, 0 < N → env.lister (N - 1) = Except.ok f →
      (UpdateTiKVGroup env tg newStatus oldStatus).ret =
        some { f with status := tg.status }) := by
  have h5 : retrySteps = 5 := rfl
  have h := upLoop_conflicts_then_ok env tg.status N 0 retrySteps tg (by omega)
    (fun i hi => by simpa using hconf i hi)
    (by simpa using hok)
  simpa [UpdateTiKVGroup] using h

/-- C2 witness: one conflict then success, lister hit. -/
theorem UpdateTiKVGroup_conflicts_then_success_witness :
    (UpdateTiKVGroup cexEnvC1 cexTg 3 2).writes.length = 2 ∧
    (UpdateTiKVGroup cexEnvC1 cexTg 3 2).err = none ∧
    (UpdateTiKVGroup cexEnvC1 cexTg 3 2).ret =
      some { (⟨"tg", "ns", 55, 99⟩ : TiKVGroup Nat Nat) with status := cexTg.status } := by
  have h := UpdateTiKVGroup_conflicts_then_success cexEnvC1 cexTg 3 2 1 (by decide)
    (fun i hi => ⟨"version conflict", by
      have hi0 : i = 0 := by omega
      subst hi0; rfl⟩)
    rfl
  exact ⟨h.1, h.2.1, h.2.2.2 ⟨"tg", "ns", 55, 99⟩ (by decide) rfl⟩

/-- C3: when every attempt in the budget conflicts, `UpdateTiKVGroup`
performs exactly the budgeted number of write attempts and returns the
last conflict error; a non-conflict write error is returned on first
occurrence, with no further attempts after it. -/
theorem UpdateTiKVGroup_budget_and_fatal {S T : Type} (env : UpdEnv S T)
    (tg : TiKVGroup S T) (newStatus oldStatus : T) (ms : Nat → String) :
    ((∀ i, i < retrySteps → env.write i = WriteOutcome.conflict (ms i)) →
      (UpdateTiKVGroup env tg newStatus oldStatus).writes.length = retrySteps ∧
      (UpdateTiKVGroup env tg newStatus oldStatus).err =
        some (UpdateErr.conflict (ms (retrySteps - 1)))) ∧
    (∀ k m, k < retrySteps →
      (∀ i, i < k → env.write i = WriteOutcome.conflict (ms i)) →
      env.write k = WriteOutcome.fatal m →
      (UpdateTiKVGroup env tg newStatus oldStatus).writes.length = k + 1 ∧
      (UpdateTiKVGroup env tg newStatus oldStatus).err = some (UpdateErr.fatal m)) := by
  have h5 : retrySteps = 5 := rfl
  constructor
  · intro hconf
    have h := upLoop_all_conflicts env tg.status ms retrySteps 0 tg (by omega)
      (fun i hi => by simpa using hconf i hi)
    simpa [UpdateTiKVGroup] using h
  · intro k m hk hconf hfatal
    have h := upLoop_conflicts_then_fatal env tg.status k 0 retrySteps tg m (by omega)
      (fun i hi => ⟨ms i, by simpa using hconf i hi⟩)
      (by simpa using hfatal)
    simpa [UpdateTiKVGroup] using h

/-- C3 witness: all five attempts conflicting surfaces the fifth
conflict error after five writes; a conflict then a non-conflict error
stops after the second write. -/
theorem UpdateTiKVGroup_budget_witness :
    ((UpdateTiKVGroup envAllConflict cexTg 3 2).writes.length = retrySteps ∧
     (UpdateTiKVGroup envAllConflict cexTg 3 2).err =
       some (UpdateErr.conflict (natStr 4))) ∧
    ((UpdateTiKVGroup envFatal cexTg 3 2).writes.length = 2 ∧
     (UpdateTiKVGroup envFatal cexTg 3 2).err = some (UpdateErr.fatal "boom")) := by
  constructor
  · have h := (UpdateTiKVGroup_budget_and_fatal envAllConflict cexTg 3 2 natStr).1
      (fun _ _ => rfl)
    simpa using h
  · have h := (UpdateTiKVGroup_budget_and_fatal envFatal cexTg 3 2 (fun _ => "c0")).2
      1 "boom" (by decide)
      (fun i hi => by
        have hi0 : i = 0 := by omega
        subst hi0; rfl)
      rfl
    exact h

/-- C4: in a conflict-retry iteration with attempts left, a failed
lister re-fetch is logged but the loop still continues to the next
attempt with the working object unchanged; a successful re-fetch
continues with a deep copy of the fetched object carrying the
snapshotted status re-asserted; the lister's own object is not mutated
(the continuation receives a fresh record-update value). -/
theorem conflict_refetch_behavior {S T : Type} (env : UpdEnv S T) (snap : T)
    (attempt rem : Nat) (tg : TiKVGroup S T) (m : String)
    (hw : env.write attempt = WriteOutcome.conflict m) :
    (∀ e, env.lister attempt = Except.error e →
      upLoop env snap attempt (rem + 2) tg =
        ⟨tg :: (upLoop env snap (attempt + 1) (rem + 1) tg).writes,
         (upLoop env snap (attempt + 1) (rem + 1) tg).ret,
         (upLoop env snap (attempt + 1) (rem + 1) tg).err⟩) ∧
    (∀ f, env.lister attempt = Except.ok f →
      upLoop env snap attempt (rem + 2) tg =
        ⟨tg :: (upLoop env snap (attempt + 1) (rem + 1) { f with status := snap }).writes,
         (upLoop env snap (attempt + 1) (rem + 1) { f with status := snap }).ret,
         (upLoop env snap (attempt + 1) (rem + 1) { f with status := snap }).err⟩) := by
  constructor
  · intro e he
    rw [upLoop_conflict_step env snap attempt (rem + 1) tg m hw (by omega)]
    simp [refetch, he]
  · intro f hf
    rw [upLoop_conflict_step env snap attempt (rem + 1) tg m hw (by omega)]
    simp [refetch, hf]

/-- C4 witness: both branches exercised at concrete environments. -/
theorem conflict_refetch_witness :
    (upLoop envFatal 1 0 2 cexTg =
      ⟨cexTg :: (upLoop envFatal 1 1 1 cexTg).writes,
       (upLoop envFatal 1 1 1 cexTg).ret,
       (upLoop envFatal 1 1 1 cexTg).err⟩) ∧
    (upLoop envAllConflict 1 0 2 cexTg =
      ⟨cexTg :: (upLoop envAllConflict 1 1 1
          { (⟨"tg", "ns", 55, 99⟩ : TiKVGroup Nat Nat) with status := 1 }).writes,
       (upLoop envAllConflict 1 1 1
          { (⟨"tg", "ns", 55, 99⟩ : TiKVGroup Nat Nat) with status := 1 }).ret,
       (upLoop envAllConflict 1 1 1
          { (⟨"tg", "ns", 55, 99⟩ : TiKVGroup Nat Nat) with status := 1 }).err⟩) :=
  ⟨(conflict_refetch_behavior envFatal 1 0 0 cexTg "c0" rfl).1 "miss" rfl,
   (conflict_refetch_behavior envAllConflict 1 0 0 cexTg (natStr 0) rfl).2
     ⟨"tg", "ns", 55, 99⟩ rfl⟩

/-- C10: passing the same resource object against the same store and
lister behaviour, the whole result — the sequence of store writes, the
returned object and the returned error — is identical whatever the
new-status and old-status arguments are: both are ignored. -/
theorem UpdateTiKVGroup_independent_of_status_args {S T : Type} (env : UpdEnv S T)
    (tg : TiKVGroup S T) (new1 old1 new2 old2 : T) :
    UpdateTiKVGroup env tg new1 old1 = UpdateTiKVGroup env tg new2 old2 := rfl

/-! ### Claims C6, C7, C8, C9. -/

/-- C6: once an HTTP client is obtained, `GetHealth` returns no error
to its caller, and returns true exactly when the status-endpoint
request yields a response with status code strictly below 400; any
transport failure or 400-and-above response yields false with no
error. -/
theorem GetHealth_best_effort (w : World) (tdc : TiDBControl) (tc : TidbCluster)
    (ordinal : Nat) (client : HTTPClient)
    (hc : getHTTPClient w tc = Except.ok client) :
    (GetHealth w tdc tc ordinal).err = none ∧
    (∀ e, w.http client ⟨"GET", getBaseURL tdc tc ordinal ++ "/status"⟩ = Except.error e →
      (GetHealth w tdc tc ordinal).healthy = false) ∧
    (∀ res, w.http client ⟨"GET", getBaseURL tdc tc ordinal ++ "/status"⟩ = Except.ok res →
      ((GetHealth w tdc tc ordinal).healthy = true ↔ res.statusCode < 400)) := by
  refine ⟨?_, ?_, ?_⟩
  · rcases hh : w.http client ⟨"GET", getBaseURL tdc tc ordinal ++ "/status"⟩ with e | res
    · simp [GetHealth, getBodyOK, hc, hh]
    · by_cases h4 : res.statusCode ≥ 400 <;>
        simp [GetHealth, getBodyOK, hc, hh, h4]
  · intro e he
    simp [GetHealth, getBodyOK, hc, he]
  · intro res hres
    by_cases h4 : res.statusCode ≥ 400
    · simp only [GetHealth, getBodyOK, hc, hres, if_pos h4]
      constructor
      · intro hcontr
        exact absurd hcontr (by simp)
      · intro hlt
        omega
    · simp only [GetHealth, getBodyOK, hc, hres, if_neg h4]
      constructor
      · intro _
        omega
      · intro _
        trivial

/-- C6 witness: the theorem applied at a concrete world. -/
theorem GetHealth_best_effort_witness :
    (GetHealth wHealthy tdcReal tcPlain 0).err = none ∧
    (GetHealth wHealthy tdcReal tcPlain 0).healthy = true := by
  have h := GetHealth_best_effort wHealthy tdcReal tcPlain 0 ⟨5, none⟩ rfl
  exact ⟨h.1, (h.2.2 ⟨200, "ok"⟩ rfl).mpr (by decide)⟩

/-- C7: on any non-200 response, `GetInfo` and `GetSettings` return an
error built from the exact received status code and the request URL and
no decoded payload; the error text for code 503 contains "503"; on a
200 response whose body decodes, `GetInfo` returns the decoded info,
and the is_owner=true fixture yields `IsOwner = true` with no error. -/
theorem GetInfo_GetSettings_status_errors (w : World) (tdc : TiDBControl)
    (tc : TidbCluster) (ordinal : Nat) (client : HTTPClient)
    (hc : getHTTPClient w tc = Except.ok client) :
    (∀ res, w.http client ⟨"POST", getBaseURL tdc tc ordinal ++ "/info"⟩ = Except.ok res →
      res.statusCode ≠ 200 →
      (GetInfo w tdc tc ordinal).info =
        Except.error (errResponseColon res.statusCode (getBaseURL tdc tc ordinal ++ "/info"))) ∧
    (∀ res, w.http client ⟨"GET", getBaseURL tdc tc ordinal ++ "/settings"⟩ = Except.ok res →
      res.statusCode ≠ 200 →
      (GetSettings w tdc tc ordinal).settings =
        Except.error (errResponseColon res.statusCode (getBaseURL tdc tc ordinal ++ "/settings"))) ∧
    (∀ url, (errResponseColon 503 url).data =
      "Error response ".data ++ ("503".data ++ (" URL: ".data ++ url.data))) ∧
    (∀ res info, w.http client ⟨"POST", getBaseURL tdc tc ordinal ++ "/info"⟩ = Except.ok res →
      res.statusCode = 200 → decodeDBInfo res.body = Except.ok info →
      (GetInfo w tdc tc ordinal).info = Except.ok info) ∧
    (GetInfo wInfoOwner tdcReal tcPlain 0).info = Except.ok ⟨true⟩ := by
  refine ⟨?_, ?_, ?_, ?_, ?_⟩
  · intro res hres hneq
    simp [GetInfo, hc, hres, hneq]
  · intro res hres hneq
    simp [GetSettings, hc, hres, hneq]
  · intro url
    have h503 : natStr 503 = "503" := rfl
    simp [errResponseColon, h503, string_data_append, List.append_assoc]
  · intro res info hres h200 hdec
    simp [GetInfo, hc, hres, h200, hdec]
  · decide

/-- C7 witness: the theorem applied at concrete worlds — a 503 fixture
produces the status error whose text carries "503", and the
is_owner=true fixture decodes. -/
theorem GetInfo_status_error_witness :
    (GetInfo w503 tdcReal tcPlain 0).info =
      Except.error (errResponseColon 503 (getBaseURL tdcReal tcPlain 0 ++ "/info")) ∧
    (GetInfo wInfoOwner tdcReal tcPlain 0).info = Except.ok ⟨true⟩ := by
  have h := GetInfo_GetSettings_status_errors w503 tdcReal tcPlain 0 ⟨5, none⟩ rfl
  exact ⟨h.1 ⟨503, "service unavailable"⟩ rfl (by decide), h.2.2.2.2⟩

/-- C8: with mutual TLS enabled, a fetched secret missing the
client-certificate field or the private-key field makes `GetHealth`,
`GetInfo` and `GetSettings` fail with the missing-credential error
before any HTTP request is issued. -/
theorem missing_credentials_no_request (w : World) (tdc : TiDBControl)
    (tc : TidbCluster) (ordinal : Nat) (secret : Secret)
    (htls : tc.tlsEnabled = true)
    (hs : w.secrets tc.ns (ClusterClientTLSSecretName tc.name) = Except.ok secret)
    (hmiss : secret.data tlsCertKey = none ∨ secret.data tlsPrivateKeyKey = none) :
    (GetHealth w tdc tc ordinal).err =
      some ("cert or key does not exist in secret " ++ tc.ns ++ "/"
        ++ ClusterClientTLSSecretName tc.name) ∧
    (GetHealth w tdc tc ordinal).trace.requests = [] ∧
    (GetInfo w tdc tc ordinal).info =
      Except.error ("cert or key does not exist in secret " ++ tc.ns ++ "/"
        ++ ClusterClientTLSSecretName tc.name) ∧
    (GetInfo w tdc tc ordinal).trace.requests = [] ∧
    (GetSettings w tdc tc ordinal).settings =
      Except.error ("cert or key does not exist in secret " ++ tc.ns ++ "/"
        ++ ClusterClientTLSSecretName tc.name) ∧
    (GetSettings w tdc tc ordinal).trace.requests = [] := by
  have hcli : getHTTPClient w tc =
      Except.error ("cert or key does not exist in secret " ++ tc.ns ++ "/"
        ++ ClusterClientTLSSecretName tc.name) := by
    rcases hmiss with hm | hm
    · simp [getHTTPClient, TidbCluster.IsTLSClusterEnabled, htls, hs, hm]
    · rcases hcert : secret.data tlsCertKey with _ | c
      · simp [getHTTPClient, TidbCluster.IsTLSClusterEnabled, htls, hs, hcert]
      · simp [getHTTPClient, TidbCluster.IsTLSClusterEnabled, htls, hs, hcert, hm]
  refine ⟨?_, ?_, ?_, ?_, ?_, ?_⟩ <;>
    simp [GetHealth, GetInfo, GetSettings, hcli]

/-- C8 witness: a secret missing only the private-key field. -/
theorem missing_credentials_witness :
    (GetInfo wMissingKey tdcReal tcTLS 0).trace.requests = [] ∧
    (GetInfo wMissingKey tdcReal tcTLS 0).info =
      Except.error ("cert or key does not exist in secret " ++ "default" ++ "/"
        ++ ClusterClientTLSSecretName "demo") := by
  have h := missing_credentials_no_request wMissingKey tdcReal tcTLS 0 secretNoKey rfl rfl
    (Or.inr (by decide))
  exact ⟨h.2.2.2.1, h.2.2.1⟩

/-- C9: the claim that every received response body is drained and
closed on every exit path is violated by the code: `getBodyOK` returns
on a status of 400 and above before registering the deferred close, so
on the `/status` path a 500 response's body is neither drained nor
closed; and on a non-200 `/info` response the body is closed by the
deferred close but never drained. -/
theorem response_body_not_always_drained_and_closed :
    (GetHealth w500 tdcReal tcPlain 0).trace.fates = [⟨false, false⟩] ∧
    (GetHealth w500 tdcReal tcPlain 0).trace.requests.length = 1 ∧
    (GetInfo w503 tdcReal tcPlain 0).trace.fates = [⟨false, true⟩] := by
  decide
